import Mathlib

/-!
Shallow embedding of the FeedWise feed-ingestion, relevance-scoring and
summarization core (TypeScript/Express/Mongoose backend plus React frontend).

JavaScript string/array semantics that matter to the translated code
(truthiness of strings, `||` on strings, `String.prototype.trim`,
whitespace collapsing) are modelled explicitly by small helper functions.
Numbers are modelled by `Rat` (scores) and `Int` (millisecond timestamps);
Mongoose query filters are modelled as decidable predicates over lists of
documents.  A Mongoose query whose filter contains a JavaScript `undefined`
value drops that key from the filter (documented Mongoose behaviour), which
the dedup-probe model reflects.
-/

namespace FeedWise

/-! ## JavaScript string helpers -/

/-- JS truthiness of a string value: `undefined` and the empty string are
falsy, every other string is truthy. -/
def jsTruthy : Option String → Bool
  | none => false
  | some s => s ≠ ""

/-- JS `a || b` where `a` is a string: returns `b` when `a` is falsy. -/
def jsOrS (a b : String) : String :=
  if a = "" then b else a

/-- JS `a || b` where `a` is a possibly-undefined string. -/
def jsOrOS (a : Option String) (b : String) : String :=
  match a with
  | none => b
  | some s => jsOrS s b

/-- Left trim on character lists (drop leading whitespace). -/
def trimLeftL (l : List Char) : List Char :=
  l.dropWhile Char.isWhitespace

/-- Trim on character lists: drop leading and trailing whitespace,
modelling JS `String.prototype.trim`. -/
def trimL (l : List Char) : List Char :=
  ((trimLeftL l).reverse.dropWhile Char.isWhitespace).reverse

/-- JS `s.trim()`. -/
def jsTrim (s : String) : String :=
  String.mk (trimL s.data)

/-! ## Data model

Mirrors the Mongoose schemas `Article`, `Feed`, `SavedArticle` and the
controller-visible fields.  Timestamps are `Int` milliseconds, identifiers
are `Nat`. -/

/-- The literal 0.5 (the neutral default relevance score), written as an
explicit reduced fraction so that it evaluates definitionally. -/
def ratHalf : Rat := ⟨1, 2, by decide, by decide⟩

structure Article where
  title : String
  description : String
  url : String
  feedId : Nat
  feedTitle : String
  feedFavicon : String
  author : String
  publishDate : Int
  tags : List String
  imageUrl : String
  isRead : Bool
  isSaved : Bool
  relevanceScore : Rat
  userId : Nat
  deriving DecidableEq, Repr

/-- The Feed document.  The schema declares `title, url, favicon, category,
tags, lastUpdated, unreadCount, userId`; the refresh controller additionally
assigns `feed.hasNewContent`, which we carry as a field of the in-memory
document. -/
structure Feed where
  id : Nat
  title : String
  url : String
  favicon : String
  category : String
  tags : List String
  lastUpdated : Int
  unreadCount : Nat
  hasNewContent : Bool
  userId : Nat
  deriving DecidableEq, Repr

structure SavedRow where
  articleId : Nat
  userId : Nat
  savedAt : Int
  deriving DecidableEq, Repr

/-! ## Persistence-layer uniqueness (articleSchema)

`articleSchema` declares `url: { ..., unique: true }`: a single-field unique
index on `url`, global across all owners.  An insert is admitted exactly
when no stored article already carries the same `url`. -/

/-- Admissibility of an article insert under the schema's unique index on
`url` (the constraint the persistence layer actually enforces). -/
def insertAdmissible (db : List Article) (a : Article) : Bool :=
  db.all (fun b => b.url ≠ a.url)

/-- Modelled from the spec's words: admissibility under a compound
uniqueness constraint on the dedup key `(ownerId, bodyUrl)`, the constraint
the claim says the persistence layer enforces. -/
def pairInsertAdmissible (db : List Article) (a : Article) : Bool :=
  db.all (fun b => !(b.userId = a.userId && b.url = a.url))

/-- All stored urls are pairwise distinct (the invariant maintained by the
unique index on `url`). -/
def urlsDistinct (db : List Article) : Prop :=
  db.Pairwise (fun x y => x.url ≠ y.url)

/-- At most one article per `(ownerId, bodyUrl)` pair. -/
def pairsDistinct (db : List Article) : Prop :=
  db.Pairwise (fun x y => x.userId ≠ y.userId ∨ x.url ≠ y.url)

instance (db : List Article) : Decidable (urlsDistinct db) := by
  unfold urlsDistinct; infer_instance

instance (db : List Article) : Decidable (pairsDistinct db) := by
  unfold pairsDistinct; infer_instance

/-! ## Item normalizer (author / description extraction in the feed controller) -/

/-- The `name` field of a structured author object: a string or an array
(whose entries we carry already stringified, as `String(x)` renders them). -/
inductive AuthorName where
  | nstr (s : String)
  | narr (l : List String)
  deriving DecidableEq, Repr

/-- The raw `item.author` value: absent, a string, an object with an
optional `name`, or an array (entries carried stringified). -/
inductive AuthorField where
  | absent
  | str (s : String)
  | obj (name : Option AuthorName)
  | arr (elems : List String)
  deriving DecidableEq, Repr

/-- JS truthiness of `item.author.name`: absent and `""` are falsy; arrays
(including the empty array) are truthy. -/
def authorNameTruthy : Option AuthorName → Bool
  | none => false
  | some (.nstr s) => s ≠ ""
  | some (.narr _) => true

/-- Author extraction of `createFeed`/`refreshFeed`: string used directly;
object unwrapped through `name` (first entry when `name` is a non-empty
array); non-empty array takes its first entry; otherwise `creator`,
defaulting to `"Unknown"`.  A falsy (empty-string) author string falls
through to the `creator` branch, mirroring `if (item.author)`. -/
def extractAuthor (author : AuthorField) (creator : Option String) : String :=
  match author with
  | .str s => if s ≠ "" then s else jsOrOS creator "Unknown"
  | .obj name =>
    if authorNameTruthy name then
      match name with
      | some (.narr (h :: _)) => h
      | some (.nstr s) => s
      | _ => "Unknown"
    else jsOrOS creator "Unknown"
  | .arr elems =>
    match elems with
    | h :: _ => h
    | [] => jsOrOS creator "Unknown"
  | .absent => jsOrOS creator "Unknown"

/-- A raw feed item as consumed by the controller: every field optional,
`pubDate` carried as an already-parsed millisecond timestamp. -/
structure FeedItem where
  title : Option String
  contentSnippet : Option String
  content : Option String
  link : Option String
  creator : Option String
  author : AuthorField
  pubDate : Option Int
  enclosureUrl : Option String
  deriving DecidableEq, Repr

/-- Description normalization of `createFeed`/`refreshFeed`:
`item.contentSnippet || item.content || ''`, replaced by the synthesized
fallback when empty or whitespace-only, then trimmed. -/
def normalizeDescription (item : FeedItem) : String :=
  let description := jsOrOS item.contentSnippet (jsOrOS item.content "")
  let description :=
    if description = "" ∨ jsTrim description = "" then
      match item.title with
      | some t => if t ≠ "" then "Article about " ++ t else "No description available"
      | none => "No description available"
    else description
  jsTrim description

/-- Modelled from the spec's words (the claimed fallback chain): prefer the
plain-text snippet when non-blank, then the HTML body, then
`"Article about {title}"` when a title exists, else a generic placeholder,
always trimmed. -/
def claimedDescription (item : FeedItem) : String :=
  if jsTrim (item.contentSnippet.getD "") ≠ "" then jsTrim (item.contentSnippet.getD "")
  else if jsTrim (item.content.getD "") ≠ "" then jsTrim (item.content.getD "")
  else
    match item.title with
    | some t => if t ≠ "" then jsTrim ("Article about " ++ t) else "No description available"
    | none => "No description available"

/-! ## Ingestion (`refreshFeed`)

The per-item existence probe is
`Article.findOne({ url: item.link, userId })`; when `item.link` is
`undefined` Mongoose drops the `url` key from the filter, so the probe then
matches any article of the user.  `Article.create` is subject to the
schema's global unique index on `url`; a duplicate aborts the whole call
(the catch answers 400 and the feed document is not updated). -/

/-- The existence probe of `refreshFeed`. -/
def dedupMatch (db : List Article) (uid : Nat) (link : Option String) : Bool :=
  match link with
  | some l => db.any (fun a => a.url = l && a.userId = uid)
  | none => db.any (fun a => a.userId = uid)

/-- `Article.create` under the unique index on `url`: `none` models the
duplicate-key rejection. -/
def createArticle (db : List Article) (a : Article) : Option (List Article) :=
  if insertAdmissible db a then some (db ++ [a]) else none

/-- The article document built for a new item during `refreshFeed`. -/
def mkRefreshArticle (feed : Feed) (uid : Nat) (now : Int) (item : FeedItem) : Article :=
  { title := jsOrOS item.title "No title"
    description := normalizeDescription item
    url := jsOrOS item.link feed.url
    feedId := feed.id
    feedTitle := feed.title
    feedFavicon := feed.favicon
    author := extractAuthor item.author item.creator
    publishDate := item.pubDate.getD now
    tags := feed.tags
    imageUrl := jsOrOS item.enclosureUrl ""
    isRead := false
    isSaved := false
    relevanceScore := ratHalf
    userId := uid }

/-- The item loop of `refreshFeed`: skip existing, create new, count the
creations; a duplicate-key error aborts the call (`none`). -/
def refreshLoop (feed : Feed) (uid : Nat) (now : Int) :
    List FeedItem → List Article → Nat → Option (List Article × Nat)
  | [], db, n => some (db, n)
  | item :: rest, db, n =>
    if dedupMatch db uid item.link then refreshLoop feed uid now rest db n
    else
      match createArticle db (mkRefreshArticle feed uid now item) with
      | some db2 => refreshLoop feed uid now rest db2 (n + 1)
      | none => none

/-- `refreshFeed`: process all items, then set `lastUpdated`, add the new
count to `unreadCount` and clear `hasNewContent`.  `none` is the 400 error
answer (feed document left unchanged). -/
def refreshFeed (feed : Feed) (uid : Nat) (now : Int) (items : List FeedItem)
    (db : List Article) : Option (List Article × Feed × Nat) :=
  match refreshLoop feed uid now items db 0 with
  | some (db2, n) =>
    some (db2,
      { feed with lastUpdated := now, unreadCount := feed.unreadCount + n,
                  hasNewContent := false }, n)
  | none => none

/-! ## New-content probe (`checkNewFeedContent`) -/

/-- Outcome of the conditional fetch plus parse: 304 Not Modified, a parsed
item list, or any thrown error (network failure, non-2xx status, parse
failure). -/
inductive ProbeFetch where
  | notModified
  | ok (items : List FeedItem)
  | probeError
  deriving DecidableEq, Repr

/-- The stored-article lookup of the probe:
`Article.findOne({ url, feedId, userId })`. -/
def hasStoredArticle (db : List Article) (feed : Feed) (uid : Nat) (l : String) : Bool :=
  db.any (fun a => a.url = l && a.feedId = feed.id && a.userId = uid)

/-- `checkNewFeedContent`: 304 answers false; otherwise the newest item's
date is compared against `feed.lastUpdated` and the first five items'
links are probed; any error answers true. -/
def checkNewFeedContent (db : List Article) (feed : Feed) (uid : Nat)
    (probe : ProbeFetch) : Bool :=
  match probe with
  | .notModified => false
  | .probeError => true
  | .ok items =>
    let dateNew :=
      match items with
      | [] => false
      | first :: _ =>
        match first.pubDate with
        | some d => decide (feed.lastUpdated < d)
        | none => false
    if dateNew then true
    else
      (items.take 5).any (fun item =>
        match item.link with
        | none => false
        | some l =>
          if l = "" then false
          else !(hasStoredArticle db feed uid l))

/-- Modelled from the spec's words: the newest item's publish date is
strictly after `Feed.lastSyncedAt`. -/
def newestItemIsNewer (feed : Feed) (items : List FeedItem) : Bool :=
  match items with
  | [] => false
  | first :: _ =>
    match first.pubDate with
    | some d => decide (feed.lastUpdated < d)
    | none => false

/-- Modelled from the spec's words: one of the first five items carries a
link with no stored article for this owner and feed. -/
def someEarlyLinkUnstored (db : List Article) (feed : Feed) (uid : Nat)
    (items : List FeedItem) : Bool :=
  (items.take 5).any (fun item =>
    match item.link with
    | none => false
    | some l => if l = "" then false else !(hasStoredArticle db feed uid l))

/-! ## Relevance scorer (frontend `calculateRelevanceScores`) -/

structure UserTag where
  name : String
  deriving DecidableEq, Repr

/-- The slice of the frontend `Article` the scorer reads; `publishDate` is
the millisecond epoch value of `new Date(article.publishDate)`. -/
structure FArticle where
  publishDate : Rat
  tags : Option (List String)
  isRead : Bool
  isSaved : Bool
  deriving DecidableEq, Repr

/-- The per-article body of `calculateRelevanceScores`: tag matches,
recency bonus from whole elapsed days, read penalty, saved bonus, clamp. -/
def calculateRelevanceScore (now : Rat) (userTags : List UserTag) (a : FArticle) : Rat :=
  let s0 : Rat :=
    match a.tags with
    | some tl =>
      if userTags.length > 0 then
        ((userTags.filter (fun t => tl.contains t.name)).length : Rat) * (1 / 4)
      else 0
    | none => 0
  let daysDifference : Int := ⌊(now - a.publishDate) / (1000 * 3600 * 24)⌋
  let s1 := if daysDifference < 1 then s0 + 3 / 10
            else if daysDifference < 3 then s0 + 2 / 10
            else if daysDifference < 7 then s0 + 1 / 10
            else s0
  let s2 := if a.isRead then s1 - 2 / 10 else s1
  let s3 := if a.isSaved then s2 + 1 / 10 else s2
  min (max s3 0) 1

/-- Number of owner tags whose name appears in the article's tags. -/
def matchingTagCount (userTags : List UserTag) (a : FArticle) : Nat :=
  (userTags.filter (fun t => (a.tags.getD []).contains t.name)).length

/-- Modelled from the spec's words: `clamp(0.25·matches + recency − read +
saved, 0, 1)` with the recency bonus keyed on whole elapsed days. -/
def claimedRelevanceScore (now : Rat) (userTags : List UserTag) (a : FArticle) : Rat :=
  let base : Rat := (matchingTagCount userTags a : Rat) * (1 / 4)
  let days : Int := ⌊(now - a.publishDate) / (1000 * 3600 * 24)⌋
  let recency : Rat := if days < 1 then 3 / 10 else if days < 3 then 2 / 10
                       else if days < 7 then 1 / 10 else 0
  let readPenalty : Rat := if a.isRead then 2 / 10 else 0
  let savedBonus : Rat := if a.isSaved then 1 / 10 else 0
  min (max (base + recency - readPenalty + savedBonus) 0) 1

/-! ## Display-order comparator (frontend `filteredArticles` sort) -/

structure SArticle where
  relevanceScore : Rat
  publishDate : Rat
  deriving DecidableEq, Repr

/-- The sort comparator: significant score gaps order by score, otherwise
by publish date (both descending; negative result places `a` first). -/
def compareArticles (a b : SArticle) : Rat :=
  let relevanceDiff := b.relevanceScore - a.relevanceScore
  if |relevanceDiff| > 3 / 10 then relevanceDiff
  else b.publishDate - a.publishDate

/-! ## Saved-article toggle (`toggleSavedArticle`) -/

/-- `SavedArticle.findOne({ articleId, userId })`. -/
def findSavedRow (rows : List SavedRow) (uid aid : Nat) : Bool :=
  rows.any (fun r => r.articleId = aid && r.userId = uid)

/-- `SavedArticle.deleteOne({ articleId, userId })`: removes the first
matching row. -/
def deleteOneRow : List SavedRow → Nat → Nat → List SavedRow
  | [], _, _ => []
  | r :: rest, uid, aid =>
    if r.articleId = aid && r.userId = uid then rest
    else r :: deleteOneRow rest uid aid

/-- `toggleSavedArticle`: flip the flag; on save, create the index row if
missing; on unsave, delete it if present.  Returns the new flag and rows. -/
def toggleSavedArticle (uid aid : Nat) (now : Int) (isSaved : Bool)
    (rows : List SavedRow) : Bool × List SavedRow :=
  let existing := findSavedRow rows uid aid
  let wasSaved := isSaved
  if !wasSaved then
    (!wasSaved, if !existing then rows ++ [⟨aid, uid, now⟩] else rows)
  else
    (!wasSaved, if existing then deleteOneRow rows uid aid else rows)

/-- Number of index rows stored for one `(owner, article)` pair. -/
def countSavedRows (rows : List SavedRow) (uid aid : Nat) : Nat :=
  (rows.filter (fun r => r.articleId = aid && r.userId = uid)).length

/-! ## Read/unread marking and tag update (article controller) -/

/-- `markArticleAsRead`: decrement the feed's unread count when the
article was unread (and the count positive), then set `isRead`. -/
def markArticleAsRead (article : Article) (feed : Feed) : Article × Feed :=
  let feed2 :=
    if !article.isRead then
      if feed.unreadCount > 0 then { feed with unreadCount := feed.unreadCount - 1 }
      else feed
    else feed
  ({ article with isRead := true }, feed2)

/-- `markArticleAsUnread`: increment the feed's unread count when the
article was read, then clear `isRead`. -/
def markArticleAsUnread (article : Article) (feed : Feed) : Article × Feed :=
  let feed2 :=
    if article.isRead then { feed with unreadCount := feed.unreadCount + 1 }
    else feed
  ({ article with isRead := false }, feed2)

/-- `updateArticleTags`: replaces the article's tags; reads no feed. -/
def updateArticleTags (article : Article) (tags : List String) : Article :=
  { article with tags := tags }

/-! ## Summarizer (`summaryService.ts`)

Pure string pipeline.  The only external effect is the
`node-summarizer` call in the enhanced path, modelled as a parameter
`lib : Nat → Except Unit (Option String)` taking the adaptive sentence
count and answering either a thrown error, a falsy result, or the
`result.summary` text.  JS regular expressions are translated into
character-list scanners. -/

/-- Collapse every whitespace run into a single space
(`replace(/\s+/g, ' ')`; the following `replace(/\n+/g, ' ')` is a no-op).
Fuelled by the list length so the scan reduces definitionally; each step
consumes at least one character, so the fuel never runs out. -/
def squishF : Nat → List Char → List Char
  | _, [] => []
  | 0, l => l
  | Nat.succ fuel, c :: rest =>
    if c.isWhitespace then ' ' :: squishF fuel (rest.dropWhile Char.isWhitespace)
    else c :: squishF fuel rest

def squish (l : List Char) : List Char :=
  squishF l.length l

/-- `content.replace(/\s+/g, ' ').replace(/\n+/g, ' ').trim()`. -/
def collapseWs (s : String) : String :=
  jsTrim (String.mk (squish s.data))

/-- Whether a character list starts with a whitespace character. -/
def startsWithWs : List Char → Bool
  | [] => false
  | d :: _ => d.isWhitespace

/-- `replace(/([.?!])\s+/g, "$1|")`: sentence-ending punctuation followed
by whitespace keeps the punctuation and turns the whitespace into `|`
(fuelled like `squishF`). -/
def markBreaksF : Nat → List Char → List Char
  | _, [] => []
  | 0, l => l
  | Nat.succ fuel, c :: rest =>
    if (c = '.' || c = '?' || c = '!') && startsWithWs rest then
      c :: '|' :: markBreaksF fuel (rest.dropWhile Char.isWhitespace)
    else c :: markBreaksF fuel rest

def markBreaks (l : List Char) : List Char :=
  markBreaksF l.length l

/-- JS `String.prototype.split` with a one-character separator. -/
def splitOnChar (sep : Char) : List Char → List (List Char)
  | [] => [[]]
  | c :: rest =>
    if c = sep then [] :: splitOnChar sep rest
    else
      match splitOnChar sep rest with
      | [] => [[c]]
      | h :: t => (c :: h) :: t

/-- Sentence segmentation of the local summarizer: mark breaks, split on
the marker, keep fragments longer than 10 characters. -/
def sentencesOf (normalizedContent : String) : List String :=
  ((splitOnChar '|' (markBreaks normalizedContent.data)).map String.mk).filter
    (fun s => s.length > 10)

/-- JS `split(/\s+/)`: fields between maximal whitespace runs, with empty
leading/trailing fields when the string starts/ends with whitespace
(fuelled like `squishF`). -/
def splitWsF : Nat → List Char → List (List Char)
  | _, [] => [[]]
  | 0, l => [l]
  | Nat.succ fuel, c :: rest =>
    if c.isWhitespace then [] :: splitWsF fuel (rest.dropWhile Char.isWhitespace)
    else
      match splitWsF fuel rest with
      | [] => [[c]]
      | h :: t => (c :: h) :: t

def splitWsL (l : List Char) : List (List Char) :=
  splitWsF l.length l

/-- JS `s.split(/\s+/)` as strings. -/
def jsSplitWs (s : String) : List String :=
  (splitWsL s.data).map String.mk

/-- JS `text.includes(pat)`. -/
def containsStr (text pat : String) : Bool :=
  decide (List.IsInfix pat.data text.data)

/-- The apostrophe character. -/
def singleQuote : Char := Char.ofNat 39

/-- JS `\w`: ASCII letters, digits and underscore. -/
def isWordChar (c : Char) : Bool :=
  c.isAlphanum || c = '_'

def isUpperAZ (c : Char) : Bool :=
  'A' ≤ c && c ≤ 'Z'

def isLetterAZ (c : Char) : Bool :=
  isUpperAZ c || ('a' ≤ c && c ≤ 'z')

/-- Suffixes of the statistics pattern
`/\d+(\.\d+)?(%|percent|million|billion|thousand)/i` (text is lowercase
when tested). -/
def numSuffixes : List String := ["%", "percent", "million", "billion", "thousand"]

/-- Whether one of the statistics suffixes starts at this position. -/
def suffixHere (l : List Char) : Bool :=
  numSuffixes.any (fun suf => suf.data.isPrefixOf l)

/-- Match of `\d+(\.\d+)?(%|…)` anchored at this position (with the
regex's backtracking over the optional fraction). -/
def matchNumAt : List Char → Bool
  | [] => false
  | c :: rest =>
    if c.isDigit then
      let rest1 := (c :: rest).dropWhile Char.isDigit
      let withFrac :=
        match rest1 with
        | '.' :: r2 =>
          if (r2.takeWhile Char.isDigit) ≠ [] then suffixHere (r2.dropWhile Char.isDigit)
          else false
        | _ => false
      withFrac || suffixHere rest1
    else false

/-- Unanchored test of the statistics pattern. -/
def hasNumberWithSuffix (l : List Char) : Bool :=
  l.tails.any matchNumAt

def months : List String :=
  ["january", "february", "march", "april", "may", "june", "july", "august",
   "september", "october", "november", "december"]

/-- `\b(19|20)\d{2}\b` anchored here (boundary before checked by caller). -/
def yearAt : List Char → Bool
  | a :: b :: c :: d :: rest =>
    ((a = '1' && b = '9') || (a = '2' && b = '0')) && c.isDigit && d.isDigit &&
      (match rest with | [] => true | e :: _ => !isWordChar e)
  | _ => false

/-- `\b(january|…|december)\b` anchored here. -/
def monthAt (l : List Char) : Bool :=
  months.any (fun m =>
    m.data.isPrefixOf l &&
      (match l.drop m.length with | [] => true | e :: _ => !isWordChar e))

/-- Scan for the date pattern, tracking whether the previous character is
a word character (for the leading `\b`). -/
def hasDateAux : Bool → List Char → Bool
  | _, [] => false
  | prev, c :: rest =>
    (!prev && (yearAt (c :: rest) || monthAt (c :: rest))) ||
      hasDateAux (isWordChar c) rest

def hasDate (l : List Char) : Bool :=
  hasDateAux false l

def comparisonPhrases : List String :=
  ["more than", "less than", "compared to", "versus", "vs.", "greater than",
   "better than"]

def causePhrases : List String :=
  ["because", "due to", "as a result of", "caused by", "lead to", "resulting in"]

/-- `calculateInfoDensityScore`: statistics, comparisons, quotes, dates,
cause–effect connectives (the quote regexes `/"[^"]*"/` and `/'[^']*'/`
match exactly when the text holds two of the respective quote marks). -/
def calculateInfoDensityScore (text : String) : Nat :=
  let s1 := if hasNumberWithSuffix text.data then 3
            else if text.data.any Char.isDigit then 1 else 0
  let s2 := if comparisonPhrases.any (containsStr text) then 2 else 0
  let s3 := if (text.data.filter (fun c => c = '"')).length ≥ 2 ∨
               (text.data.filter (fun c => c = singleQuote)).length ≥ 2 then 2 else 0
  let s4 := if hasDate text.data then 2 else 0
  let s5 := if causePhrases.any (containsStr text) then 2 else 0
  s1 + s2 + s3 + s4 + s5

def summaryPhrases : List String :=
  ["in summary", "to summarize", "in conclusion", "therefore", "as a result",
   "consequently", "the key", "important", "significant", "notably",
   "essentially", "critically", "fundamental", "primarily", "research shows",
   "study found", "according to"]

structure ScoredSentence where
  sentence : String
  score : Nat
  index : Nat
  deriving DecidableEq, Repr

/-- `findImportantSentences`: score each sentence by position, length,
title keywords, summary phrases, questions and information density; sort
by score (stable, descending), take the top `count`, restore document
order. -/
def findImportantSentences (sentences : List String) (title : String)
    (count : Nat) : List String :=
  let titleWords := (jsSplitWs title.toLower).filter (fun w => w.length > 3)
  let scoredSentences := sentences.enum.map (fun p =>
    let index := p.1
    let sentence := p.2
    let text := sentence.toLower
    let positionScore :=
      if index = 0 ∨ index = sentences.length - 1 then 3
      else if 3 * index < sentences.length then 2
      else 1
    let length := sentence.length
    let lengthScore :=
      if 60 < length ∧ length < 200 then 3
      else if 40 < length ∧ length ≤ 60 then 2
      else 1
    let keywordScore := titleWords.foldl (fun acc word =>
      if containsStr text word then acc + 2
      else if titleWords.any (fun tw =>
          tw.length > 5 && containsStr text (tw.take (tw.length - 2))) then acc + 1
      else acc) 0
    let infoDensityScore := calculateInfoDensityScore text
    let summaryPhraseScore := if summaryPhrases.any (containsStr text) then 3 else 0
    let questionScore := if containsStr text "?" then 2 else 0
    ScoredSentence.mk sentence
      (positionScore + lengthScore + keywordScore + summaryPhraseScore +
        questionScore + infoDensityScore) index)
  let sorted := scoredSentences.mergeSort (fun a b => b.score ≤ a.score)
  ((sorted.take count).mergeSort (fun a b => a.index ≤ b.index)).map
    (fun item => item.sentence)

def starterPhrases : List String :=
  ["in this article", "here", "today", "we will discuss", "let\x27s talk about"]

/-- `replace(/^(in this article|here|today|we will discuss|let\x27s talk
about)/i, '')`: drop a case-insensitive starter phrase from the front. -/
def stripStarter (s : String) : String :=
  match starterPhrases.find? (fun p => p.data.isPrefixOf s.toLower.data) with
  | some p => s.drop p.length
  | none => s

/-- `extractMainTopic`: the title when non-blank, else a cleaned and
length-capped first sentence, else a fixed fallback. -/
def extractMainTopic (title content : String) : String :=
  if title ≠ "" ∧ jsTrim title ≠ "" then title
  else
    let firstParagraph := (content.splitOn ".").headD ""
    if firstParagraph ≠ "" ∧ firstParagraph.length > 10 then
      let topic := jsTrim (stripStarter firstParagraph)
      if topic.length > 100 then topic.take 97 ++ "..." else topic
    else "Unable to determine main topic"

/-- Word of `/\b[A-Z][a-zA-Z]*\b/` anchored here: an uppercase letter and
its following letters, with the remainder. -/
def entWordAt : List Char → Option (List Char × List Char)
  | [] => none
  | c :: rest =>
    if isUpperAZ c then some (c :: rest.takeWhile isLetterAZ, rest.dropWhile isLetterAZ)
    else none

/-- Trailing `\b`: the remainder must not start with a word character. -/
def entEndsOk : List Char → Bool
  | [] => true
  | c :: _ => !isWordChar c

/-- Greedy continuation `(?:\s+[A-Z][a-zA-Z]*)*` with per-iteration
backtracking, fuelled by the remainder's length. -/
def entMatchFrom : Nat → List Char → List Char → Option (List Char × List Char)
  | 0, w1, r => if entEndsOk r then some (w1, r) else none
  | Nat.succ fuel, w1, r =>
    let ws := r.takeWhile Char.isWhitespace
    let r1 := r.dropWhile Char.isWhitespace
    if ws ≠ [] then
      match entWordAt r1 with
      | some (w2, r2) =>
        match entMatchFrom fuel w2 r2 with
        | some (m, rest) => some (w1 ++ ws ++ m, rest)
        | none => if entEndsOk r then some (w1, r) else none
      | none => if entEndsOk r then some (w1, r) else none
    else if entEndsOk r then some (w1, r) else none

/-- All matches of the capitalized-sequence pattern, scanning left to
right with the leading `\b` tracked through the previous character. -/
def entitiesScan : Nat → Bool → List Char → List (List Char)
  | 0, _, _ => []
  | Nat.succ fuel, prev, l =>
    match l with
    | [] => []
    | c :: rest =>
      if !prev then
        match entWordAt l with
        | some (w1, r) =>
          match entMatchFrom r.length w1 r with
          | some (m, rest2) => m :: entitiesScan fuel true rest2
          | none => entitiesScan fuel (isWordChar c) rest
        | none => entitiesScan fuel (isWordChar c) rest
      else entitiesScan fuel (isWordChar c) rest

/-- `content.match(/\b[A-Z][a-zA-Z]*(?:\s+[A-Z][a-zA-Z]*)*\b/g) || []`. -/
def entitiesIn (s : String) : List String :=
  (entitiesScan s.data.length false s.data).map String.mk

def commonWords : List String :=
  ["the", "a", "an", "and", "or", "but", "for", "nor", "on", "at", "to",
   "from", "by"]

/-- `extractEntities`: capitalized sequences plus long title words, minus
common words and short entries, deduplicated in insertion order, capped
at 10. -/
def extractEntities (content title : String) : List String :=
  let potentialEntities := entitiesIn content
  let titleWords :=
    if title ≠ "" then (jsSplitWs title).filter (fun w => w.length > 3) else []
  let entities := (potentialEntities ++ titleWords).foldl (fun acc entity =>
    if !(commonWords.contains entity.toLower) && entity.length > 3 then
      if acc.contains entity then acc else acc ++ [entity]
    else acc) []
  entities.take 10

def conclusionMarkers : List String :=
  ["in conclusion", "to conclude", "finally", "to summarize", "in summary"]

/-- `generateConclusionContext`: first of the last five sentence fragments
holding a conclusion marker, else a synthesized context line from the
word count and title. -/
def generateConclusionContext (content title : String) : String :=
  let lastParagraphs := ((content.splitOn ".").reverse.take 5).reverse
  match lastParagraphs.find? (fun paragraph =>
      conclusionMarkers.any (containsStr paragraph.toLower)) with
  | some paragraph => jsTrim paragraph ++ "."
  | none =>
    let wordCount := (jsSplitWs content).length
    "This is a " ++ (if wordCount > 1000 then "lengthy" else "brief") ++ " " ++
      toString wordCount ++ " word article focused on " ++
      jsOrS title "the topic" ++ "."

/-- `generateLocalSummary`: short content passes through as a brief line;
otherwise header, main topic, key points (all sentences when at most four,
else the top five important ones), entities and a context line. -/
def generateLocalSummary (title content : String) : String :=
  if content.length < 200 then
    "• Brief Article: " ++ (if title ≠ "" then title ++ " - " else "") ++ content
  else
    let normalizedContent := collapseWs content
    let sentences := sentencesOf normalizedContent
    let points :=
      if sentences.length ≤ 4 then
        String.intercalate "\n\n" (sentences.map (fun s => "• " ++ jsTrim s))
      else
        String.intercalate "\n\n"
          ((findImportantSentences sentences title 5).map (fun s => "• " ++ jsTrim s))
    let entities := extractEntities normalizedContent title
    let entitiesPart :=
      if entities ≠ [] then "\n\n**Key Entities**: " ++ String.intercalate ", " entities
      else ""
    "## " ++ jsOrS title "Article" ++ " Summary\n\n" ++
      ("**Main Topic**: " ++ extractMainTopic title normalizedContent ++ "\n\n") ++
      "**Key Points**:\n\n" ++ points ++ entitiesPart ++
      ("\n\n**Context**: This " ++ (if sentences.length > 15 then "in-depth" else "brief") ++
        " article covers " ++ jsOrS title "the above topics" ++ ".")

/-- `/[.!?]$/` on a bullet sentence. -/
def endsWithPunct (s : String) : Bool :=
  match s.data.getLast? with
  | some c => c = '.' || c = '!' || c = '?'
  | none => false

/-- `generateEnhancedSummary`: short content passes through; otherwise the
`node-summarizer` library is consulted with the adaptive sentence count
(`min(8, max(4, ceil(len/400)))`) and its output (or a first-sentences
fallback) is rendered with topic, entities and conclusion sections.  A
library throw propagates (`Except.error`). -/
def generateEnhancedSummary (lib : Nat → Except Unit (Option String))
    (title content : String) : Except Unit String :=
  if content.length < 200 then
    Except.ok ("• Brief Article: " ++ (if title ≠ "" then title ++ " - " else "") ++ content)
  else
    let cleanContent := collapseWs content
    let sentenceCount := min 8 (max 4 ((cleanContent.length + 399) / 400))
    match lib sentenceCount with
    | Except.error e => Except.error e
    | Except.ok libSummary =>
      let entities := extractEntities cleanContent title
      let points :=
        if jsTruthy libSummary then
          String.intercalate "\n\n"
            ((((libSummary.getD "").splitOn ". ").filter
                (fun s => (jsTrim s).length > 10)).map (fun s =>
              let s := jsTrim s
              let s := if endsWithPunct s then s else s ++ "."
              "• " ++ s))
        else
          "• " ++ String.intercalate ". " ((cleanContent.splitOn ". ").take 3) ++ "."
      let entitiesPart :=
        if entities ≠ [] then "\n\n**Key Entities**: " ++ String.intercalate ", " entities
        else ""
      let conclusion := generateConclusionContext cleanContent title
      let ctxPart := if conclusion ≠ "" then "\n\n**Context**: " ++ conclusion else ""
      Except.ok ("## " ++ jsOrS title "Article" ++ " Summary\n\n" ++
        ("**Main Topic**: " ++ extractMainTopic title cleanContent ++ "\n\n") ++
        "**Key Points**:\n\n" ++ points ++ entitiesPart ++ ctxPart)

/-- The exceptions `generateArticleSummary` could in principle raise to
its caller; `quotaExceeded` stands for `OpenAIQuotaExceededError`, which
is declared in the source but thrown nowhere. -/
inductive SummaryThrow where
  | quotaExceeded
  | other
  deriving DecidableEq, Repr

/-- `generateArticleSummary`: the enhanced path, with every thrown error
caught and answered by the local fallback — so no `SummaryThrow` is ever
produced. -/
def generateArticleSummary (lib : Nat → Except Unit (Option String))
    (title content : String) : Except SummaryThrow String :=
  match generateEnhancedSummary lib title content with
  | Except.ok summary => Except.ok summary
  | Except.error _ => Except.ok (generateLocalSummary title content)

/-- The controller-visible outcomes of `getArticleSummary`. -/
inductive SummaryResponse where
  | okCached (summary : String)
  | okNew (summary : String)
  | quota429 (summary : String)
  | serverError500
  deriving DecidableEq, Repr

/-- `getArticleSummary`: serve the cached summary when present, else
generate and store one; a thrown `OpenAIQuotaExceededError` would answer
429 with a placeholder, any other throw 500. -/
def getArticleSummary (cache : Option String)
    (lib : Nat → Except Unit (Option String)) (article : Article) : SummaryResponse :=
  match cache with
  | some s => SummaryResponse.okCached s
  | none =>
    match generateArticleSummary lib article.title article.description with
    | Except.ok summary => SummaryResponse.okNew summary
    | Except.error SummaryThrow.quotaExceeded =>
      SummaryResponse.quota429
        "AI summary generation is temporarily unavailable due to high demand. Please try again later."
    | Except.error SummaryThrow.other => SummaryResponse.serverError500

/-- Whether a response is the quota-exceeded 429 branch. -/
def isQuota429 : SummaryResponse → Bool
  | SummaryResponse.quota429 _ => true
  | _ => false

/-! ## Concrete documents for counterexamples and witnesses -/

def feedFx : Feed :=
  ⟨7, "F", "http://f", "/fav", "news", ["x"], 0, 0, false, 1⟩

def itemFx : FeedItem :=
  ⟨some "Hello", some "Snippet text here", none, some "http://e/1", none,
   AuthorField.absent, some 5, none⟩

def emptyLinkItemFx : FeedItem :=
  ⟨none, none, none, some "", none, AuthorField.absent, none, none⟩

def blankSnippetItemFx : FeedItem :=
  ⟨some "T", some " ", some "Hello world", some "l", none, AuthorField.absent,
   none, none⟩

def articleFx (uid : Nat) (u : String) : Article :=
  ⟨"t", "d", u, 0, "ft", "ff", "a", 0, [], "", false, false, ratHalf, uid⟩

/-- A summarization library call that always throws. -/
def throwingLib : Nat → Except Unit (Option String) :=
  fun _ => Except.error ()

def longContentFx : String :=
  String.mk (List.replicate 200 'a')

/-! ## The description chain the code actually implements (for C6) -/

/-- The synthesized fallback of the description chain, trimmed. -/
def fallbackDescription (item : FeedItem) : String :=
  match item.title with
  | some t => if t ≠ "" then jsTrim ("Article about " ++ t) else "No description available"
  | none => "No description available"

/-- The fallback chain the controller actually implements: the trimmed
snippet when the snippet is non-blank; the synthesized fallback when the
snippet is truthy but whitespace-only (the HTML body is skipped); else the
trimmed body when non-blank; else the synthesized fallback. -/
def amendedDescription (item : FeedItem) : String :=
  if jsTruthy item.contentSnippet then
    if jsTrim (item.contentSnippet.getD "") = "" then fallbackDescription item
    else jsTrim (item.contentSnippet.getD "")
  else if jsTruthy item.content then
    if jsTrim (item.content.getD "") = "" then fallbackDescription item
    else jsTrim (item.content.getD "")
  else fallbackDescription item

/-! # Lemmas and claim theorems -/

/-! ## Trim lemmas -/

theorem dropWhile_dropWhile (p : Char → Bool) (l : List Char) :
    (l.dropWhile p).dropWhile p = l.dropWhile p := by
  induction l with
  | nil => rfl
  | cons c rest ih =>
    rw [List.dropWhile_cons]
    by_cases h : p c
    · simpa [h] using ih
    · simp [List.dropWhile_cons, h]

theorem mem_dropWhile_of_not (p : Char → Bool) {c : Char} {l : List Char}
    (hc : c ∈ l) (hp : p c = false) : c ∈ l.dropWhile p := by
  induction l with
  | nil => cases hc
  | cons a rest ih =>
    rw [List.dropWhile_cons]
    by_cases h : p a
    · rcases List.mem_cons.mp hc with rfl | hm
      · rw [hp] at h; cases h
      · simpa [h] using ih hm
    · simpa [h] using hc

theorem dropWhile_head_false (p : Char → Bool) :
    ∀ (l : List Char) (c : Char) (t : List Char),
      l.dropWhile p = c :: t → p c = false := by
  intro l
  induction l with
  | nil => intro c t h; cases h
  | cons a rest ih =>
    intro c t h
    rw [List.dropWhile_cons] at h
    by_cases hp : p a
    · rw [if_pos hp] at h; exact ih c t h
    · rw [if_neg hp] at h
      cases h
      exact Bool.eq_false_iff.mpr hp

theorem dropWhile_eq_self_of_head (p : Char → Bool) (l : List Char)
    (h : ∀ c t, l = c :: t → p c = false) : l.dropWhile p = l := by
  cases l with
  | nil => rfl
  | cons a rest =>
    rw [List.dropWhile_cons, if_neg]
    exact Bool.eq_false_iff.mp (h a rest rfl)

theorem trimL_isPrefix (l : List Char) : List.IsPrefix (trimL l) (trimLeftL l) := by
  unfold trimL
  have h1 : List.IsSuffix ((trimLeftL l).reverse.dropWhile Char.isWhitespace)
      (trimLeftL l).reverse := List.dropWhile_suffix _
  have h2 := List.reverse_prefix.mpr h1
  simpa using h2

theorem trimL_dropWhile (l : List Char) :
    (trimL l).dropWhile Char.isWhitespace = trimL l := by
  apply dropWhile_eq_self_of_head
  intro c t h
  rcases (trimL_isPrefix l) with ⟨s, hs⟩
  rw [h] at hs
  exact dropWhile_head_false Char.isWhitespace l c (t ++ s) hs.symm

theorem trimL_trimL (l : List Char) : trimL (trimL l) = trimL l := by
  have h1 : trimLeftL (trimL l) = trimL l := trimL_dropWhile l
  show ((trimLeftL (trimL l)).reverse.dropWhile Char.isWhitespace).reverse = trimL l
  rw [h1]
  have h2 : (trimL l).reverse = (trimLeftL l).reverse.dropWhile Char.isWhitespace := by
    unfold trimL
    rw [List.reverse_reverse]
  rw [h2, dropWhile_dropWhile, ← h2, List.reverse_reverse]

theorem trimL_ne_nil {l : List Char} {c : Char} (hc : c ∈ l)
    (hpc : c.isWhitespace = false) : trimL l ≠ [] := by
  have h1 : c ∈ trimLeftL l := mem_dropWhile_of_not _ hc hpc
  have h2 : c ∈ (trimLeftL l).reverse := List.mem_reverse.mpr h1
  have h3 : c ∈ (trimLeftL l).reverse.dropWhile Char.isWhitespace :=
    mem_dropWhile_of_not _ h2 hpc
  have h4 : c ∈ trimL l := List.mem_reverse.mpr h3
  exact List.ne_nil_of_mem h4

theorem jsTrim_jsTrim (s : String) : jsTrim (jsTrim s) = jsTrim s := by
  show String.mk (trimL (String.mk (trimL s.data)).data) = String.mk (trimL s.data)
  exact congrArg String.mk (trimL_trimL s.data)

theorem jsTrim_ne_empty {s : String} {c : Char} (hc : c ∈ s.data)
    (hpc : c.isWhitespace = false) : jsTrim s ≠ "" := by
  intro h
  have h2 : trimL s.data = [] := congrArg String.data h
  exact trimL_ne_nil hc hpc h2

theorem prepend_ne_empty (a x : String) (h : a.data ≠ []) : a ++ x ≠ "" := by
  intro he
  have h2 : a.data ++ x.data = ([] : List Char) := by
    have := congrArg String.data he
    simpa [String.data_append] using this
  exact h (List.append_eq_nil.mp h2).1

/-! ## C1 — persistence-layer dedup key -/

/-- C1 counterexample: the schema's unique index is on `url` alone, not on
the `(ownerId, bodyUrl)` pair: an insert of the same url under a different
owner is admitted by the claimed pair constraint but rejected by the
constraint the persistence layer enforces. -/
theorem article_url_index_is_not_the_pair_key :
    pairInsertAdmissible [articleFx 1 "http://e/a"] (articleFx 2 "http://e/a") = true ∧
    insertAdmissible [articleFx 1 "http://e/a"] (articleFx 2 "http://e/a") = false := by
  decide

/-- C1 (amended): the persistence layer enforces global uniqueness of
`url`; that constraint is preserved by admitted inserts and implies that
at most one Article exists per `(ownerId, bodyUrl)` pair. -/
theorem url_uniqueness_implies_pair_uniqueness (db : List Article) (a : Article) :
    (urlsDistinct db → pairsDistinct db) ∧
    (insertAdmissible db a = true → urlsDistinct db → urlsDistinct (a :: db)) := by
  constructor
  · intro h
    exact h.imp (fun hx => Or.inr hx)
  · intro hadm h
    unfold urlsDistinct at *
    rw [List.pairwise_cons]
    refine ⟨fun y hy => ?_, h⟩
    have hall := List.all_eq_true.mp hadm y hy
    exact Ne.symm (of_decide_eq_true hall)

theorem url_uniqueness_implies_pair_uniqueness_witness :
    urlsDistinct [articleFx 2 "http://e/b", articleFx 1 "http://e/a"] :=
  (url_uniqueness_implies_pair_uniqueness [articleFx 1 "http://e/a"]
    (articleFx 2 "http://e/b")).2 (by decide) (by decide)

/-! ## C4 — two-tier display comparator -/

/-- C4: the comparator orders by descending relevance score when the score
gap exceeds 0.3, and by descending publish date (regardless of score)
when the gap is at most 0.3. -/
theorem display_order_two_tier (a b : SArticle) :
    (3 / 10 < |b.relevanceScore - a.relevanceScore| →
      ((compareArticles a b < 0 ↔ b.relevanceScore < a.relevanceScore) ∧
       (0 < compareArticles a b ↔ a.relevanceScore < b.relevanceScore))) ∧
    (|b.relevanceScore - a.relevanceScore| ≤ 3 / 10 →
      ((compareArticles a b < 0 ↔ b.publishDate < a.publishDate) ∧
       (0 < compareArticles a b ↔ a.publishDate < b.publishDate))) := by
  simp only [compareArticles]
  constructor
  · intro h
    rw [if_pos h]
    exact ⟨sub_neg, sub_pos⟩
  · intro h
    rw [if_neg (not_lt.mpr h)]
    exact ⟨sub_neg, sub_pos⟩

theorem display_order_two_tier_witness :
    0 < compareArticles ⟨17 / 20, 1⟩ ⟨4 / 5, 2⟩ :=
  ((display_order_two_tier ⟨17 / 20, 1⟩ ⟨4 / 5, 2⟩).2 (by rw [abs_le]; constructor <;> norm_num)).2.mpr
    (by norm_num)

/-! ## C5 — new-content probe -/

/-- C5: the probe answers false on 304 Not Modified, true on any error
(fail open), and otherwise answers true exactly when the newest item's
publish date is strictly after `lastUpdated` or one of the first five
items' links has no stored article for this owner and feed. -/
theorem probe_characterization (db : List Article) (feed : Feed) (uid : Nat)
    (items : List FeedItem) :
    checkNewFeedContent db feed uid ProbeFetch.notModified = false ∧
    checkNewFeedContent db feed uid ProbeFetch.probeError = true ∧
    checkNewFeedContent db feed uid (ProbeFetch.ok items) =
      (newestItemIsNewer feed items || someEarlyLinkUnstored db feed uid items) := by
  refine ⟨rfl, rfl, ?_⟩
  show (if newestItemIsNewer feed items = true then true
        else someEarlyLinkUnstored db feed uid items) = _
  cases newestItemIsNewer feed items <;> simp

/-! ## C9 — which operations touch the Feed counters -/

/-- C9 counterexample: marking an unread article as read decrements the
feed's `unreadCount`, so read-marking does not leave the three Feed
fields unchanged. -/
theorem mark_read_changes_unread_count :
    ((markArticleAsRead (articleFx 1 "u") { feedFx with unreadCount := 1 }).2).unreadCount = 0 ∧
    ({ feedFx with unreadCount := 1 } : Feed).unreadCount = 1 := by
  decide

/-- C9 (amended): read/unread marking never touches `lastUpdated` or
`hasNewContent`, but does adjust `unreadCount` (down on read when the
article was unread and the count positive, up on unread when the article
was read). -/
theorem user_actions_frame (article : Article) (feed : Feed) :
    ((markArticleAsRead article feed).2.lastUpdated = feed.lastUpdated ∧
     (markArticleAsRead article feed).2.hasNewContent = feed.hasNewContent ∧
     (markArticleAsRead article feed).2.unreadCount =
       (if article.isRead = false ∧ 0 < feed.unreadCount then feed.unreadCount - 1
        else feed.unreadCount)) ∧
    ((markArticleAsUnread article feed).2.lastUpdated = feed.lastUpdated ∧
     (markArticleAsUnread article feed).2.hasNewContent = feed.hasNewContent ∧
     (markArticleAsUnread article feed).2.unreadCount =
       (if article.isRead = true then feed.unreadCount + 1 else feed.unreadCount)) := by
  unfold markArticleAsRead markArticleAsUnread
  cases harticle : article.isRead <;>
    by_cases hcount : 0 < feed.unreadCount <;>
      simp [harticle, hcount, Nat.not_lt.mp, gt_iff_lt]

/-! ## C10 — quota branch unreachability -/

/-- C10: `generateArticleSummary` always answers a summary (every primary
failure is absorbed by the local fallback), so the 429 quota branch of
`getArticleSummary` is unreachable. -/
theorem quota_branch_unreachable (cache : Option String)
    (lib : Nat → Except Unit (Option String)) (article : Article) :
    isQuota429 (getArticleSummary cache lib article) = false ∧
    (generateArticleSummary lib article.title article.description).isOk = true := by
  have hok : ∀ t c, (generateArticleSummary lib t c).isOk = true := by
    intro t c
    unfold generateArticleSummary
    cases generateEnhancedSummary lib t c <;> rfl
  refine ⟨?_, hok _ _⟩
  cases cache with
  | some s => rfl
  | none =>
    rcases h2 : generateArticleSummary lib article.title article.description with e | s
    · have h3 := hok article.title article.description
      rw [h2] at h3
      cases h3
    · simp [getArticleSummary, h2, isQuota429]

/-! ## C3 — relevance score formula and bounds -/

/-- C3: the computed relevance score equals the claimed clamped formula
(0.25 per matching owner tag, uncapped, plus the whole-day recency bonus,
minus 0.2 when read, plus 0.1 when saved), and always lies in [0, 1]. -/
theorem relevance_score_formula (now : Rat) (userTags : List UserTag) (a : FArticle) :
    calculateRelevanceScore now userTags a = claimedRelevanceScore now userTags a ∧
    0 ≤ calculateRelevanceScore now userTags a ∧
    calculateRelevanceScore now userTags a ≤ 1 := by
  refine ⟨?_, ?_, ?_⟩
  · simp only [calculateRelevanceScore, claimedRelevanceScore, matchingTagCount]
    cases htags : a.tags with
    | none =>
      have hnil : userTags.filter (fun t => ([] : List String).contains t.name) = [] := by
        simp
      simp only [Option.getD_none, hnil, List.length_nil, Nat.cast_zero]
      split_ifs <;> ring_nf
    | some tl =>
      by_cases hlen : userTags.length > 0
      · simp only [if_pos hlen, Option.getD_some]
        split_ifs <;> ring_nf
      · have h0 : userTags = [] := List.length_eq_zero.mp (Nat.eq_zero_of_not_pos hlen)
        subst h0
        simp only [List.filter_nil, List.length_nil, Nat.cast_zero]
        split_ifs <;> ring_nf
  · exact le_min (le_max_right _ _) zero_le_one
  · exact min_le_right _ _

/-! ## C6 — description fallback chain -/

/-- C6 counterexample: a whitespace-only snippet (truthy in JS) skips the
HTML body and falls straight to the synthesized title string, so the
claimed snippet-then-body chain does not match the code. -/
theorem description_skips_html_body :
    normalizeDescription blankSnippetItemFx = "Article about T" ∧
    claimedDescription blankSnippetItemFx = "Hello world" ∧
    normalizeDescription blankSnippetItemFx ≠ claimedDescription blankSnippetItemFx := by
  decide

/-- The untrimmed fallback expression inside `normalizeDescription`
trims to `fallbackDescription`. -/
theorem jsTrim_fallback (item : FeedItem) :
    jsTrim (match item.title with
            | some t => if t ≠ "" then "Article about " ++ t
                        else "No description available"
            | none => "No description available") = fallbackDescription item := by
  unfold fallbackDescription
  cases item.title with
  | none => decide
  | some t =>
    by_cases ht : t = ""
    · simp only [ht, ne_eq, not_true_eq_false, if_false]
      decide
    · simp only [ne_eq, ht, not_false_eq_true, if_true]

theorem fallbackDescription_ne_empty (item : FeedItem) :
    fallbackDescription item ≠ "" := by
  unfold fallbackDescription
  cases item.title with
  | none => decide
  | some t =>
    by_cases ht : t = ""
    · simp only [ht, ne_eq, not_true_eq_false, if_false]
      decide
    · simp only [ne_eq, ht, not_false_eq_true, if_true]
      refine jsTrim_ne_empty (c := 'A') ?_ (by decide)
      rw [String.data_append]
      exact List.mem_append_left _ (by decide)

theorem jsTrim_fallbackDescription (item : FeedItem) :
    jsTrim (fallbackDescription item) = fallbackDescription item := by
  unfold fallbackDescription
  cases item.title with
  | none => decide
  | some t =>
    by_cases ht : t = ""
    · simp only [ht, ne_eq, not_true_eq_false, if_false]
      decide
    · simp only [ne_eq, ht, not_false_eq_true, if_true]
      exact jsTrim_jsTrim _

/-- C6 (amended): the normalized description is always non-empty and
trimmed, and equals the chain the code implements: trimmed snippet when
the snippet is non-blank; synthesized fallback when the snippet is truthy
but blank (skipping the HTML body); else trimmed body when non-blank;
else the synthesized fallback. -/
theorem description_nonempty_trimmed (item : FeedItem) :
    normalizeDescription item ≠ "" ∧
    jsTrim (normalizeDescription item) = normalizeDescription item ∧
    normalizeDescription item = amendedDescription item := by
  have hnorm : normalizeDescription item =
      (if jsOrOS item.contentSnippet (jsOrOS item.content "") = "" ∨
          jsTrim (jsOrOS item.contentSnippet (jsOrOS item.content "")) = ""
       then fallbackDescription item
       else jsTrim (jsOrOS item.contentSnippet (jsOrOS item.content ""))) := by
    unfold normalizeDescription
    rw [apply_ite jsTrim, jsTrim_fallback]
  have heq : normalizeDescription item = amendedDescription item := by
    rw [hnorm]
    rcases hsn : item.contentSnippet with _ | s
    · rcases hc : item.content with _ | c
      · simp [amendedDescription, jsOrOS, jsTruthy, hsn, hc]
      · by_cases hce : c = ""
        · simp [amendedDescription, jsOrOS, jsOrS, jsTruthy, hsn, hc, hce]
        · by_cases hct : jsTrim c = ""
          · simp [amendedDescription, jsOrOS, jsOrS, jsTruthy, hsn, hc, hce, hct]
          · simp [amendedDescription, jsOrOS, jsOrS, jsTruthy, hsn, hc, hce, hct]
    · by_cases hse : s = ""
      · subst hse
        rcases hc : item.content with _ | c
        · simp [amendedDescription, jsOrOS, jsOrS, jsTruthy, hsn, hc]
        · by_cases hce : c = ""
          · simp [amendedDescription, jsOrOS, jsOrS, jsTruthy, hsn, hc, hce]
          · by_cases hct : jsTrim c = ""
            · simp [amendedDescription, jsOrOS, jsOrS, jsTruthy, hsn, hc, hce, hct]
            · simp [amendedDescription, jsOrOS, jsOrS, jsTruthy, hsn, hc, hce, hct]
      · by_cases hst : jsTrim s = ""
        · simp [amendedDescription, jsOrOS, jsOrS, jsTruthy, hsn, hse, hst]
        · simp [amendedDescription, jsOrOS, jsOrS, jsTruthy, hsn, hse, hst]
  refine ⟨?_, ?_, heq⟩
  · rw [heq]
    unfold amendedDescription
    split_ifs with h1 h2 h3 h4
    · exact fallbackDescription_ne_empty item
    · exact h2
    · exact fallbackDescription_ne_empty item
    · exact h4
    · exact fallbackDescription_ne_empty item
  · rw [heq]
    unfold amendedDescription
    split_ifs
    · exact jsTrim_fallbackDescription item
    · exact jsTrim_jsTrim _
    · exact jsTrim_fallbackDescription item
    · exact jsTrim_jsTrim _
    · exact jsTrim_fallbackDescription item

theorem description_nonempty_trimmed_witness :
    normalizeDescription emptyLinkItemFx ≠ "" ∧
    normalizeDescription emptyLinkItemFx = amendedDescription emptyLinkItemFx :=
  ⟨(description_nonempty_trimmed emptyLinkItemFx).1,
   (description_nonempty_trimmed emptyLinkItemFx).2.2⟩

/-! ## C8 — saved-article index consistency -/

theorem findSavedRow_iff_count_pos (rows : List SavedRow) (uid aid : Nat) :
    findSavedRow rows uid aid = true ↔ 0 < countSavedRows rows uid aid := by
  unfold findSavedRow countSavedRows
  constructor
  · intro h
    obtain ⟨r, hr, hp⟩ := List.any_eq_true.mp h
    exact List.length_pos.mpr (List.ne_nil_of_mem (List.mem_filter.mpr ⟨hr, hp⟩))
  · intro h
    obtain ⟨r, hr⟩ := List.exists_mem_of_length_pos h
    obtain ⟨hrows, hp⟩ := List.mem_filter.mp hr
    exact List.any_eq_true.mpr ⟨r, hrows, hp⟩

theorem countSavedRows_append_match (rows : List SavedRow) (uid aid : Nat)
    (r : SavedRow) (h : (r.articleId = aid && r.userId = uid) = true) :
    countSavedRows (rows ++ [r]) uid aid = countSavedRows rows uid aid + 1 := by
  unfold countSavedRows
  rw [List.filter_append]
  simp [h]

theorem countSavedRows_deleteOne (rows : List SavedRow) (uid aid : Nat)
    (h : findSavedRow rows uid aid = true) :
    countSavedRows (deleteOneRow rows uid aid) uid aid =
      countSavedRows rows uid aid - 1 := by
  induction rows with
  | nil => cases h
  | cons r rest ih =>
    by_cases hr : (r.articleId = aid && r.userId = uid) = true
    · simp only [deleteOneRow, if_pos hr, countSavedRows, List.filter_cons, hr,
        if_true, List.length_cons]
      omega
    · have hrest : findSavedRow rest uid aid = true := by
        rcases List.any_eq_true.mp h with ⟨x, hx, hpx⟩
        rcases List.mem_cons.mp hx with rfl | hxm
        · exact absurd hpx hr
        · exact List.any_eq_true.mpr ⟨x, hxm, hpx⟩
      simp only [deleteOneRow, if_neg hr, countSavedRows, List.filter_cons, hr,
        Bool.false_eq_true, if_false]
      exact ih hrest

theorem toggleSavedArticle_false (uid aid : Nat) (t : Int) (rows : List SavedRow) :
    toggleSavedArticle uid aid t false rows =
      (true, if findSavedRow rows uid aid = true then rows
             else rows ++ [⟨aid, uid, t⟩]) := by
  unfold toggleSavedArticle
  by_cases hex : findSavedRow rows uid aid = true <;> simp [hex]

theorem toggleSavedArticle_true (uid aid : Nat) (t : Int) (rows : List SavedRow) :
    toggleSavedArticle uid aid t true rows =
      (false, if findSavedRow rows uid aid = true then deleteOneRow rows uid aid
              else rows) := by
  unfold toggleSavedArticle
  simp

/-- C8: after a completed toggle, a SavedArticle row exists exactly when
the new `isSaved` flag is true; and toggling from unsaved to saved and
back leaves zero rows for the pair (given the unique index's at-most-one
invariant). -/
theorem saved_toggle_consistency (uid aid : Nat) (t1 t2 : Int) (isSaved : Bool)
    (rows : List SavedRow) (hcount : countSavedRows rows uid aid ≤ 1) :
    (findSavedRow (toggleSavedArticle uid aid t1 isSaved rows).2 uid aid =
       (toggleSavedArticle uid aid t1 isSaved rows).1) ∧
    (isSaved = false →
      countSavedRows
        (toggleSavedArticle uid aid t2
          (toggleSavedArticle uid aid t1 isSaved rows).1
          (toggleSavedArticle uid aid t1 isSaved rows).2).2 uid aid = 0 ∧
      (toggleSavedArticle uid aid t2
        (toggleSavedArticle uid aid t1 isSaved rows).1
        (toggleSavedArticle uid aid t1 isSaved rows).2).1 = false) := by
  cases isSaved with
  | true =>
    refine ⟨?_, fun h => by cases h⟩
    rw [toggleSavedArticle_true]
    by_cases hex : findSavedRow rows uid aid = true
    · simp only [if_pos hex]
      have h1 : 0 < countSavedRows rows uid aid :=
        (findSavedRow_iff_count_pos rows uid aid).mp hex
      have h2 : countSavedRows (deleteOneRow rows uid aid) uid aid = 0 := by
        rw [countSavedRows_deleteOne rows uid aid hex]
        omega
      apply Bool.eq_false_iff.mpr
      intro hfind
      have h3 := (findSavedRow_iff_count_pos _ uid aid).mp hfind
      omega
    · simp only [if_neg hex]
      exact Bool.eq_false_iff.mpr hex
  | false =>
    rw [toggleSavedArticle_false]
    by_cases hex : findSavedRow rows uid aid = true
    · simp only [if_pos hex]
      refine ⟨hex, fun _ => ?_⟩
      rw [toggleSavedArticle_true, if_pos hex]
      refine ⟨?_, rfl⟩
      rw [countSavedRows_deleteOne rows uid aid hex]
      have h1 := (findSavedRow_iff_count_pos rows uid aid).mp hex
      omega
    · simp only [if_neg hex]
      have hmem : findSavedRow (rows ++ [⟨aid, uid, t1⟩]) uid aid = true := by
        unfold findSavedRow
        rw [List.any_append]
        simp
      refine ⟨hmem, fun _ => ?_⟩
      rw [toggleSavedArticle_true, if_pos hmem]
      have hz : countSavedRows rows uid aid = 0 := by
        rcases Nat.eq_zero_or_pos (countSavedRows rows uid aid) with h | h
        · exact h
        · exact absurd ((findSavedRow_iff_count_pos rows uid aid).mpr h) hex
      have hc2 : countSavedRows (rows ++ [⟨aid, uid, t1⟩]) uid aid = 1 := by
        rw [countSavedRows_append_match rows uid aid _ (by simp), hz]
      refine ⟨?_, rfl⟩
      rw [countSavedRows_deleteOne _ uid aid hmem, hc2]

theorem saved_toggle_consistency_witness :
    findSavedRow (toggleSavedArticle 1 5 10 false []).2 1 5 =
      (toggleSavedArticle 1 5 10 false []).1 ∧
    countSavedRows (toggleSavedArticle 1 5 20 (toggleSavedArticle 1 5 10 false []).1
      (toggleSavedArticle 1 5 10 false []).2).2 1 5 = 0 :=
  ⟨(saved_toggle_consistency 1 5 10 20 false [] (by decide)).1,
   ((saved_toggle_consistency 1 5 10 20 false [] (by decide)).2 rfl).1⟩

/-! ## C2 — refresh idempotence -/

theorem refreshLoop_cons_match {feed : Feed} {uid : Nat} {now : Int}
    {item : FeedItem} {rest : List FeedItem} {db : List Article} {n : Nat}
    (h : dedupMatch db uid item.link = true) :
    refreshLoop feed uid now (item :: rest) db n = refreshLoop feed uid now rest db n := by
  simp only [refreshLoop]
  rw [if_pos h]

theorem refreshLoop_cons_new_ok {feed : Feed} {uid : Nat} {now : Int}
    {item : FeedItem} {rest : List FeedItem} {db : List Article} {n : Nat}
    (hd : dedupMatch db uid item.link = false)
    (hadm : insertAdmissible db (mkRefreshArticle feed uid now item) = true) :
    refreshLoop feed uid now (item :: rest) db n =
      refreshLoop feed uid now rest (db ++ [mkRefreshArticle feed uid now item]) (n + 1) := by
  simp only [refreshLoop, createArticle]
  rw [if_neg (by simp [hd]), if_pos hadm]

theorem refreshLoop_cons_new_bad {feed : Feed} {uid : Nat} {now : Int}
    {item : FeedItem} {rest : List FeedItem} {db : List Article} {n : Nat}
    (hd : dedupMatch db uid item.link = false)
    (hadm : insertAdmissible db (mkRefreshArticle feed uid now item) = false) :
    refreshLoop feed uid now (item :: rest) db n = none := by
  simp only [refreshLoop, createArticle]
  rw [if_neg (by simp [hd]), if_neg (by simp [hadm])]

theorem refreshLoop_subset (feed : Feed) (uid : Nat) (now : Int) :
    ∀ (items : List FeedItem) (db : List Article) (n : Nat)
      (db2 : List Article) (n2 : Nat),
      refreshLoop feed uid now items db n = some (db2, n2) →
      ∀ a ∈ db, a ∈ db2 := by
  intro items
  induction items with
  | nil =>
    intro db n db2 n2 h a ha
    unfold refreshLoop at h
    obtain ⟨rfl, rfl⟩ : db = db2 ∧ n = n2 := by
      simpa using h
    exact ha
  | cons item rest ih =>
    intro db n db2 n2 h a ha
    by_cases hd : dedupMatch db uid item.link = true
    · rw [refreshLoop_cons_match hd] at h
      exact ih db n db2 n2 h a ha
    · have hd' : dedupMatch db uid item.link = false := Bool.eq_false_iff.mpr hd
      by_cases hadm : insertAdmissible db (mkRefreshArticle feed uid now item) = true
      · rw [refreshLoop_cons_new_ok hd' hadm] at h
        exact ih _ _ db2 n2 h a (List.mem_append_left _ ha)
      · rw [refreshLoop_cons_new_bad hd' (Bool.eq_false_iff.mpr hadm)] at h
        cases h

theorem dedupMatch_mono {db db2 : List Article} {uid : Nat} {link : Option String}
    (hsub : ∀ a ∈ db, a ∈ db2) (h : dedupMatch db uid link = true) :
    dedupMatch db2 uid link = true := by
  cases link with
  | none =>
    obtain ⟨a, ha, hp⟩ := List.any_eq_true.mp h
    exact List.any_eq_true.mpr ⟨a, hsub a ha, hp⟩
  | some l =>
    obtain ⟨a, ha, hp⟩ := List.any_eq_true.mp h
    exact List.any_eq_true.mpr ⟨a, hsub a ha, hp⟩

theorem refreshLoop_covers (feed : Feed) (uid : Nat) (now : Int) :
    ∀ (items : List FeedItem) (db : List Article) (n : Nat)
      (db2 : List Article) (n2 : Nat),
      refreshLoop feed uid now items db n = some (db2, n2) →
      ∀ item ∈ items, (∃ l, item.link = some l ∧ l ≠ "") →
        dedupMatch db2 uid item.link = true := by
  intro items
  induction items with
  | nil =>
    intro db n db2 n2 _ item hmem
    cases hmem
  | cons it rest ih =>
    intro db n db2 n2 h item hmem hl
    rcases List.mem_cons.mp hmem with rfl | hmemr
    · by_cases hd : dedupMatch db uid item.link = true
      · rw [refreshLoop_cons_match hd] at h
        exact dedupMatch_mono (refreshLoop_subset feed uid now rest db n db2 n2 h) hd
      · have hd' : dedupMatch db uid item.link = false := Bool.eq_false_iff.mpr hd
        by_cases hadm : insertAdmissible db (mkRefreshArticle feed uid now item) = true
        · rw [refreshLoop_cons_new_ok hd' hadm] at h
          have hsub := refreshLoop_subset feed uid now rest _ _ db2 n2 h
          obtain ⟨l, hlink, hlne⟩ := hl
          have hart : dedupMatch (db ++ [mkRefreshArticle feed uid now item]) uid
              item.link = true := by
            rw [hlink]
            apply List.any_eq_true.mpr
            refine ⟨mkRefreshArticle feed uid now item,
              List.mem_append_right _ (List.mem_singleton.mpr rfl), ?_⟩
            simp [mkRefreshArticle, jsOrOS, hlink, jsOrS, hlne]
          exact dedupMatch_mono hsub hart
        · rw [refreshLoop_cons_new_bad hd' (Bool.eq_false_iff.mpr hadm)] at h
          cases h
    · by_cases hd : dedupMatch db uid it.link = true
      · rw [refreshLoop_cons_match hd] at h
        exact ih db n db2 n2 h item hmemr hl
      · have hd' : dedupMatch db uid it.link = false := Bool.eq_false_iff.mpr hd
        by_cases hadm : insertAdmissible db (mkRefreshArticle feed uid now it) = true
        · rw [refreshLoop_cons_new_ok hd' hadm] at h
          exact ih _ _ db2 n2 h item hmemr hl
        · rw [refreshLoop_cons_new_bad hd' (Bool.eq_false_iff.mpr hadm)] at h
          cases h

theorem refreshLoop_allMatch (feed : Feed) (uid : Nat) (now : Int) :
    ∀ (items : List FeedItem) (db : List Article) (n : Nat),
      (∀ item ∈ items, dedupMatch db uid item.link = true) →
      refreshLoop feed uid now items db n = some (db, n) := by
  intro items
  induction items with
  | nil => intro db n _; rfl
  | cons item rest ih =>
    intro db n hall
    rw [refreshLoop_cons_match (hall item (List.mem_cons_self item rest))]
    exact ih db n (fun it hm => hall it (List.mem_cons_of_mem item hm))

/-- C2 counterexample: an item whose link is the empty string is stored
under the feed's own url (JS `item.link || feed.url`), while the dedup
probe queries the literal empty string; the immediately repeated refresh
therefore hits the unique url index and answers the 400 error (`none`)
instead of reporting a new-article count of 0. -/
theorem refresh_second_call_errors_on_empty_link :
    refreshFeed feedFx 1 100 [emptyLinkItemFx] [] =
      some ([mkRefreshArticle feedFx 1 100 emptyLinkItemFx],
            { feedFx with lastUpdated := 100, unreadCount := 1 }, 1) ∧
    refreshFeed { feedFx with lastUpdated := 100, unreadCount := 1 } 1 200
      [emptyLinkItemFx] [mkRefreshArticle feedFx 1 100 emptyLinkItemFx] = none := by
  decide

/-- C2 (amended): when every item carries a non-empty link, a second
refresh immediately after a successful one creates no articles, reports a
new-article count of 0, and leaves `unreadCount` unchanged (only
`lastUpdated` moves). -/
theorem refresh_idempotent (feed : Feed) (uid : Nat) (now1 now2 : Int)
    (items : List FeedItem) (db db1 : List Article) (feed1 : Feed) (n1 : Nat)
    (hlinks : ∀ item ∈ items, ∃ l, item.link = some l ∧ l ≠ "")
    (h1 : refreshFeed feed uid now1 items db = some (db1, feed1, n1)) :
    refreshFeed feed1 uid now2 items db1 =
      some (db1, { feed1 with lastUpdated := now2 }, 0) := by
  unfold refreshFeed at h1
  rcases hr : refreshLoop feed uid now1 items db 0 with _ | ⟨db2, n2⟩
  · rw [hr] at h1
    cases h1
  · rw [hr] at h1
    rw [Option.some_inj] at h1
    have hdb : db2 = db1 := congrArg (fun p => p.1) h1
    have hfd := congrArg (fun p : List Article × Feed × Nat => p.2.1) h1
    simp only [] at hfd
    subst hdb
    subst hfd
    have hall : ∀ item ∈ items, dedupMatch db2 uid item.link = true :=
      fun it hm => refreshLoop_covers feed uid now1 items db 0 db2 n2 hr it hm (hlinks it hm)
    unfold refreshFeed
    rw [refreshLoop_allMatch _ uid now2 items db2 0 hall]
    rfl

theorem refresh_idempotent_witness :
    refreshFeed { feedFx with lastUpdated := 10, unreadCount := 1 } 1 20 [itemFx]
      [mkRefreshArticle feedFx 1 10 itemFx] =
      some ([mkRefreshArticle feedFx 1 10 itemFx],
            { feedFx with lastUpdated := 20, unreadCount := 1 }, 0) :=
  refresh_idempotent feedFx 1 10 20 [itemFx] []
    [mkRefreshArticle feedFx 1 10 itemFx]
    { feedFx with lastUpdated := 10, unreadCount := 1 } 1
    (by
      intro item hm
      rw [List.mem_singleton] at hm
      subst hm
      exact ⟨"http://e/1", rfl, by decide⟩)
    (by decide)

/-! ## C7 — summarizer degradation -/

theorem append_left_ne_empty (a x : String) (h : a ≠ "") : a ++ x ≠ "" := by
  intro he
  apply h
  have h2 : a.data ++ x.data = ([] : List Char) := by
    simpa [String.data_append] using congrArg String.data he
  have h3 : a.data = [] := (List.append_eq_nil.mp h2).1
  cases a
  cases h3
  rfl

theorem generateLocalSummary_ne_empty (title content : String) :
    generateLocalSummary title content ≠ "" := by
  by_cases h : content.length < 200
  · simp only [generateLocalSummary, if_pos h]
    exact append_left_ne_empty _ _ (append_left_ne_empty _ _ (by decide))
  · simp only [generateLocalSummary, if_neg h]
    exact append_left_ne_empty _ _ (append_left_ne_empty _ _
      (append_left_ne_empty _ _ (append_left_ne_empty _ _
        (append_left_ne_empty _ _ (append_left_ne_empty _ _
          (append_left_ne_empty _ _ (by decide)))))))

theorem generateEnhancedSummary_ok_ne_empty
    (lib : Nat → Except Unit (Option String)) (title content s : String)
    (h : generateEnhancedSummary lib title content = Except.ok s) : s ≠ "" := by
  unfold generateEnhancedSummary at h
  by_cases hlen : content.length < 200
  · rw [if_pos hlen] at h
    injection h with h2
    rw [← h2]
    exact append_left_ne_empty _ _ (append_left_ne_empty _ _ (by decide))
  · rw [if_neg hlen] at h
    simp only [] at h
    split at h
    · cases h
    · injection h with h2
      rw [← h2]
      exact append_left_ne_empty _ _ (append_left_ne_empty _ _
        (append_left_ne_empty _ _ (append_left_ne_empty _ _
          (append_left_ne_empty _ _ (append_left_ne_empty _ _
            (append_left_ne_empty _ _ (by decide)))))))

/-- C7: summary generation never propagates an exception (it always
answers `ok`); when the primary pathway throws, the answer is exactly the
local single-pass heuristic's output; and whatever is answered is a
non-empty string (in particular for empty or whitespace-only content). -/
theorem summary_degrades_gracefully (lib : Nat → Except Unit (Option String))
    (title content : String) :
    (generateArticleSummary lib title content).isOk = true ∧
    ((generateEnhancedSummary lib title content).isOk = false →
      generateArticleSummary lib title content =
        Except.ok (generateLocalSummary title content)) ∧
    (∀ s, generateArticleSummary lib title content = Except.ok s → s ≠ "") := by
  rcases he : generateEnhancedSummary lib title content with e | s0
  · refine ⟨?_, fun _ => ?_, ?_⟩
    · simp [generateArticleSummary, he, Except.isOk, Except.toBool]
    · simp [generateArticleSummary, he]
    · intro s hs
      simp [generateArticleSummary, he] at hs
      rw [← hs]
      exact generateLocalSummary_ne_empty title content
  · refine ⟨?_, fun hbad => ?_, ?_⟩
    · simp [generateArticleSummary, he, Except.isOk, Except.toBool]
    · simp [Except.isOk, Except.toBool] at hbad
    · intro s hs
      simp [generateArticleSummary, he] at hs
      rw [← hs]
      exact generateEnhancedSummary_ok_ne_empty lib title content s0 he

set_option maxRecDepth 10000 in
theorem summary_degrades_gracefully_witness :
    generateArticleSummary throwingLib "T" longContentFx =
      Except.ok (generateLocalSummary "T" longContentFx) :=
  (summary_degrades_gracefully throwingLib "T" longContentFx).2.1 (by decide)

end FeedWise
